import Mathlib

/-!
Shallow embedding of the `go-sarah-githubconfig` watcher (`watcher.go`).

Go maps are modelled as association lists over `String` keys; `lookupA`,
`insertA` and `eraseA` model map indexing, assignment and `delete`.  The
actor loop `operate` is modelled as a step function over an explicit
`ActorState`; the external GraphQL fetch is a parameter of type `Fetcher`
(per botType, either an error or the listed tree entries), and the external
YAML/JSON decoders are modelled abstractly by `ReadResult` tags recording
which decoder was selected and on which content.
-/

namespace GithubConfig

/-- Association-list lookup, modelling Go map indexing `m[k]`. -/
def lookupA {α : Type} : List (String × α) → String → Option α
  | [], _ => none
  | (k, v) :: rest, key => if k = key then some v else lookupA rest key

/-- Association-list insert, modelling Go map assignment `m[k] = v`. -/
def insertA {α : Type} : List (String × α) → String → α → List (String × α)
  | [], key, v => [(key, v)]
  | (k, w) :: rest, key, v =>
    if k = key then (key, v) :: rest else (k, w) :: insertA rest key v

/-- Association-list key removal, modelling Go `delete(m, k)`. -/
def eraseA {α : Type} : List (String × α) → String → List (String × α)
  | [], _ => []
  | (k, v) :: rest, key =>
    if k = key then eraseA rest key else (k, v) :: eraseA rest key

/-- The keys of an association list. -/
def keysA {α : Type} (l : List (String × α)) : List String := l.map Prod.fst

/-- Occurrence count of an element in a list. -/
def countA {α : Type} [DecidableEq α] (x : α) : List α → Nat
  | [] => 0
  | y :: rest => (if y = x then 1 else 0) + countA x rest

/-- Go `time.Second` in nanoseconds (`time.Duration` is a nanosecond count). -/
def second : Nat := 1000000000

/-- Go `time.Minute` in nanoseconds. -/
def minute : Nat := 60 * second

/-- The `Config` struct of watcher.go. -/
structure Config where
  owner : String
  name : String
  baseDir : String
  branch : String
  interval : Nat
  timeOut : Nat
deriving DecidableEq, Repr

/-- `NewConfig` from watcher.go: fills in the caller-supplied coordinates and
the defaults branch "master", interval of one minute and timeout of five
seconds. -/
def NewConfig (owner : String) (name : String) (baseDir : String) : Config :=
  { owner := owner, name := name, baseDir := baseDir, branch := "master",
    interval := 1 * minute, timeOut := 5 * second }

/-- The `file` struct of watcher.go. -/
structure File where
  id : String
  fileName : String
  extension : String
  objectID : String
  content : String
deriving DecidableEq, Repr

/-- A per-botType file set, modelling the Go map `map[string]*file`. -/
abbrev FileSet := List (String × File)

/-- One GraphQL tree entry as consumed by `get` in watcher.go: the entry
name plus the blob's oid and text. -/
structure Entry where
  name : String
  oid : String
  text : String
deriving DecidableEq, Repr

/-- Helper for `filepathExt`: walks the reversed character list of a path,
accumulating the characters after the final dot of the final element. -/
def extRevAux : List Char → List Char → String
  | [], _ => ""
  | c :: rest, acc =>
    if c = '/' then ""
    else if c = '.' then String.mk (c :: acc)
    else extRevAux rest (c :: acc)

/-- Go `filepath.Ext`: the suffix beginning at the final dot in the final
path element, or the empty string when there is no dot. -/
def filepathExt (s : String) : String :=
  extRevAux s.data.reverse []

/-- Go `strings.TrimSuffix`: removes the trailing `suffix` when present. -/
def trimSuffix (s : String) (suffix : String) : String :=
  if suffix.data.isSuffixOf s.data then
    String.mk (s.data.take (s.data.length - suffix.data.length))
  else s

/-- Builds one `file` record from a tree entry as the loop body of `get`
does: extension via `filepath.Ext`, id via `strings.TrimSuffix`. -/
def mkFile (e : Entry) : File :=
  { id := trimSuffix e.name (filepathExt e.name),
    fileName := e.name,
    extension := filepathExt e.name,
    objectID := e.oid,
    content := e.text }

/-- The id a tree entry is keyed by in the fetched set. -/
def entryId (e : Entry) : String := (mkFile e).id

/-- One iteration of `get`'s loop: store the built file under its id. -/
def insFile (files : FileSet) (e : Entry) : FileSet :=
  insertA files (mkFile e).id (mkFile e)

/-- The file-set construction of `get`: fold the listed entries into a map
keyed by id (later entries overwrite earlier ones). -/
def buildFiles (entries : List Entry) : FileSet :=
  entries.foldl insFile []

/-- The outcome of `get` in watcher.go given the raw query outcome: a query
error is wrapped, a successful query yields the file set keyed by id. -/
def get (queryResult : Except String (List Entry)) : Except String FileSet :=
  match queryResult with
  | .error e => .error ("failed to query Github API: " ++ e)
  | .ok entries => .ok (buildFiles entries)

/-- The environment's fetch behaviour: for each botType, the raw GraphQL
query outcome `get` starts from. -/
abbrev Fetcher := String → Except String (List Entry)

/-- The observable result of `read` in watcher.go: which external decoder
was selected for the output target, and on which content — or the
unsupported-extension error. -/
inductive ReadResult where
  | yamlDecode (content : String)
  | jsonDecode (content : String)
  | unsupportedExtension (id : String) (extension : String)
deriving DecidableEq, Repr

/-- `read` from watcher.go: selects the decoder by the file's extension. -/
def read (f : File) : ReadResult :=
  if f.extension = ".yml" ∨ f.extension = ".yaml" then .yamlDecode f.content
  else if f.extension = ".json" then .jsonDecode f.content
  else .unsupportedExtension f.id f.extension

/-- The reply sent on a request's error channel by the actor. -/
inductive Reply where
  | fetchError (msg : String)
  | configNotFound (botType : String) (id : String)
  | decoded (r : ReadResult)
deriving DecidableEq, Repr

/-- The actor's private state in `operate`: the cache map and the
subscription map (callbacks identified by opaque tokens). -/
structure ActorState where
  cache : List (String × FileSet)
  subs : List (String × List (String × Nat))
deriving DecidableEq, Repr

/-- The observable output of processing one actor event: the reply sent to
a requester (if any), the callbacks dispatched via `go callback()` as
(botType, id, token) triples, and the botTypes for which the fetcher was
invoked. -/
structure Output where
  reply : Option Reply
  dispatched : List (String × String × Nat)
  fetched : List String
deriving DecidableEq, Repr

/-- The silent output: no reply, no dispatch, no fetch. -/
def noOut : Output := { reply := none, dispatched := [], fetched := [] }

/-- The reply produced by looking an id up in a file set, as the tail of the
request handler does: a missing file yields `ConfigNotFoundError`, a present
one the decoder's outcome. -/
def replyFor (files : FileSet) (botType : String) (id : String) : Reply :=
  match lookupA files id with
  | none => .configNotFound botType id
  | some f => .decoded (read f)

/-- The `case req := <-w.request` branch of `operate`.  Note the Go source
declares `files, err := w.get(...)` inside the cache-miss branch, shadowing
the outer `files`: the fresh set is stored in the cache, but the id lookup
below the branch still reads the outer map, which on a cache miss is the nil
map — so a cache-miss request is answered from the empty set. -/
def handleRead (fetch : Fetcher) (st : ActorState) (botType : String) (id : String) :
    ActorState × Output :=
  match lookupA st.cache botType with
  | some files => (st, { reply := some (replyFor files botType id), dispatched := [], fetched := [] })
  | none =>
    match get (fetch botType) with
    | .error e =>
      ({ st with cache := insertA st.cache botType [] },
       { reply := some (.fetchError e), dispatched := [], fetched := [botType] })
    | .ok files =>
      ({ st with cache := insertA st.cache botType files },
       { reply := some (replyFor [] botType id), dispatched := [], fetched := [botType] })

/-- The dispatch decision for one subscription entry inside the tick loop:
fires when the subscribed id is present in the fresh set and its cached
counterpart is missing or carries a different objectID. -/
def dispatchOne (botType : String) (files : FileSet) (cached : FileSet)
    (p : String × Nat) : Option (String × String × Nat) :=
  match lookupA files p.1 with
  | none => none
  | some f =>
    match lookupA cached f.id with
    | none => some (botType, p.1, p.2)
    | some old => if old.objectID ≠ f.objectID then some (botType, p.1, p.2) else none

/-- One iteration of the tick loop for a subscribed botType: fetch, on error
skip; otherwise seed the cache when no entry exists, diff each subscription
against the (possibly just-seeded) cache entry, and finally store the fresh
set. -/
def tickOne (fetch : Fetcher) (cache : List (String × FileSet)) (botType : String)
    (sub : List (String × Nat)) :
    List (String × FileSet) × List (String × String × Nat) :=
  match get (fetch botType) with
  | .error _ => (cache, [])
  | .ok files =>
    let cache1 :=
      match lookupA cache botType with
      | none => insertA cache botType files
      | some _ => cache
    (insertA cache1 botType files,
     sub.filterMap (dispatchOne botType files ((lookupA cache1 botType).getD [])))

/-- The `case <-ticker.C` branch of `operate`: run `tickOne` for every
botType with a subscription entry; subscriptions are untouched and no reply
is produced. -/
def handleTick (fetch : Fetcher) (st : ActorState) : ActorState × Output :=
  let r := st.subs.foldl
    (fun acc p =>
      let r1 := tickOne fetch acc.1 p.1 p.2
      (r1.1, acc.2 ++ r1.2))
    (st.cache, ([] : List (String × String × Nat)))
  ({ st with cache := r.1 },
   { reply := none, dispatched := r.2, fetched := st.subs.map Prod.fst })

/-- The events the actor serializes (cancellation aside). -/
inductive Event where
  | subscribe (botType : String) (id : String) (cb : Nat)
  | unsubscribe (botType : String)
  | readReq (botType : String) (id : String)
  | tick

/-- One iteration of `operate`'s event loop. -/
def step (fetch : Fetcher) (st : ActorState) : Event → ActorState × Output
  | .subscribe botType id cb =>
    ({ st with subs := insertA st.subs botType (insertA ((lookupA st.subs botType).getD []) id cb) },
     noOut)
  | .unsubscribe botType =>
    ({ st with cache := eraseA st.cache botType, subs := eraseA st.subs botType }, noOut)
  | .readReq botType id => handleRead fetch st botType id
  | .tick => handleTick fetch st

/-- A fetch client as configured by the construction options. -/
inductive Client where
  | fromHTTP (token : String)
  | given (id : Nat)
deriving DecidableEq, Repr

/-- The option-visible part of the watcher under construction. -/
structure WatcherInit where
  client : Option Client
  config : Config
deriving DecidableEq, Repr

/-- A construction option, as in watcher.go's `type Option func(*watcher)`. -/
def Opt := WatcherInit → WatcherInit

/-- `WithClient`: installs the caller-supplied client. -/
def WithClient (c : Client) : Opt := fun w => { w with client := some c }

/-- `WithToken`: installs a client derived from an OAuth2 token. -/
def WithToken (token : String) : Opt := fun w => { w with client := some (.fromHTTP token) }

/-- Applies all options in order to the freshly allocated watcher. -/
def applyOpts (cfg : Config) (opts : List Opt) : WatcherInit :=
  opts.foldl (fun w o => o w) { client := none, config := cfg }

/-- `New` from watcher.go: applies the options, then fails exactly when no
client was installed. -/
def New (cfg : Config) (opts : List Opt) : Except String WatcherInit :=
  match (applyOpts cfg opts).client with
  | none => .error "githubv4.Client must be derived from WithClient or WithToken option"
  | some _ => .ok (applyOpts cfg opts)

/-- The last entry of the list whose computed id matches `id`, mirroring the
spec-level statement that a later-listed entry wins an id collision. -/
def lastMatch (entries : List Entry) (id : String) : Option Entry :=
  match entries with
  | [] => none
  | e :: rest =>
    match lastMatch rest id with
    | some r => some r
    | none => if entryId e = id then some e else none

theorem lookupA_insertA_self {α : Type} (l : List (String × α)) (k : String) (v : α) :
    lookupA (insertA l k v) k = some v := by
  induction l with
  | nil => simp [insertA, lookupA]
  | cons p rest ih =>
    obtain ⟨k1, v1⟩ := p
    by_cases h : k1 = k
    · simp [insertA, h, lookupA]
    · simp [insertA, h, lookupA, ih]

theorem lookupA_insertA_ne {α : Type} (l : List (String × α)) (k : String) (key : String)
    (v : α) (h : key ≠ k) : lookupA (insertA l k v) key = lookupA l key := by
  induction l with
  | nil => simp [insertA, lookupA, Ne.symm h]
  | cons p rest ih =>
    obtain ⟨k1, v1⟩ := p
    by_cases hk : k1 = k
    · subst hk
      simp [insertA, lookupA, Ne.symm h]
    · by_cases hq : k1 = key
      · simp [insertA, hk, lookupA, hq, h]
      · simp [insertA, hk, lookupA, hq, h, ih]

theorem lookupA_eraseA_self {α : Type} (l : List (String × α)) (k : String) :
    lookupA (eraseA l k) k = none := by
  induction l with
  | nil => simp [eraseA, lookupA]
  | cons p rest ih =>
    obtain ⟨k1, v1⟩ := p
    by_cases h : k1 = k
    · simp [eraseA, h, ih]
    · simp [eraseA, h, lookupA, ih]

theorem lookupA_mem {α : Type} (l : List (String × α)) (k : String) (v : α)
    (h : lookupA l k = some v) : (k, v) ∈ l := by
  induction l with
  | nil => simp [lookupA] at h
  | cons p rest ih =>
    obtain ⟨k1, v1⟩ := p
    by_cases hk : k1 = k
    · subst hk
      simp [lookupA] at h
      simp [h]
    · simp [lookupA, hk] at h
      exact List.mem_cons_of_mem _ (ih h)

theorem mem_insertA {α : Type} (l : List (String × α)) (k : String) (v : α)
    (p : String × α) (h : p ∈ insertA l k v) : p = (k, v) ∨ p ∈ l := by
  induction l with
  | nil => simpa [insertA] using h
  | cons q rest ih =>
    obtain ⟨k1, v1⟩ := q
    by_cases hk : k1 = k
    · simp [insertA, hk] at h
      rcases h with h | h
      · exact Or.inl (by simp [h])
      · exact Or.inr (List.mem_cons_of_mem _ h)
    · simp [insertA, hk] at h
      rcases h with h | h
      · exact Or.inr (by simp [h])
      · rcases ih h with h2 | h2
        · exact Or.inl h2
        · exact Or.inr (List.mem_cons_of_mem _ h2)

theorem mem_keysA_insertA {α : Type} (l : List (String × α)) (k : String) (key : String)
    (v : α) (h : key ∈ keysA (insertA l k v)) : key = k ∨ key ∈ keysA l := by
  simp only [keysA, List.mem_map] at h
  obtain ⟨p, hp, hpe⟩ := h
  rcases mem_insertA l k v p hp with h1 | h1
  · left
    rw [← hpe, h1]
  · right
    simp only [keysA, List.mem_map]
    exact ⟨p, h1, hpe⟩

theorem nodup_keysA_insertA {α : Type} (l : List (String × α)) (k : String) (v : α)
    (h : (keysA l).Nodup) : (keysA (insertA l k v)).Nodup := by
  induction l with
  | nil => simp [insertA, keysA]
  | cons q rest ih =>
    obtain ⟨k1, v1⟩ := q
    simp only [keysA, List.map_cons, List.nodup_cons] at h
    by_cases hk : k1 = k
    · subst hk
      simpa [insertA, keysA] using h
    · simp only [insertA, hk, if_false, keysA, List.map_cons, List.nodup_cons]
      refine ⟨?_, ih h.2⟩
      intro hmem
      rcases mem_keysA_insertA rest k k1 v (by simpa [keysA] using hmem) with h1 | h1
      · exact hk h1
      · exact h.1 (by simpa [keysA] using h1)

theorem countA_eq_zero_of_not_mem {α : Type} [DecidableEq α] (x : α) (l : List α)
    (h : x ∉ l) : countA x l = 0 := by
  induction l with
  | nil => rfl
  | cons y rest ih =>
    have h1 : y ≠ x := fun he => h (he ▸ List.mem_cons_self y rest)
    have h2 : x ∉ rest := fun hm => h (List.mem_cons_of_mem y hm)
    simp [countA, h1, ih h2]

theorem filterMap_none {α β : Type} (g : α → Option β) (l : List α)
    (h : ∀ a ∈ l, g a = none) : l.filterMap g = [] := by
  induction l with
  | nil => rfl
  | cons a rest ih =>
    rw [List.filterMap_cons, h a (List.mem_cons_self a rest)]
    exact ih fun b hb => h b (List.mem_cons_of_mem a hb)

theorem dispatchOne_shape (botType : String) (files : FileSet) (cached : FileSet)
    (p : String × Nat) (q : String × String × Nat)
    (h : dispatchOne botType files cached p = some q) : q = (botType, p.1, p.2) := by
  unfold dispatchOne at h
  split at h
  · exact absurd h (by simp)
  · split at h
    · exact (Option.some.inj h).symm
    · split at h
      · exact (Option.some.inj h).symm
      · exact absurd h (by simp)

theorem dispatchOne_eq (botType : String) (files : FileSet) (cached : FileSet)
    (p : String × Nat) (f : File) (hl : lookupA files p.1 = some f) :
    dispatchOne botType files cached p =
      match lookupA cached f.id with
      | none => some (botType, p.1, p.2)
      | some old => if old.objectID ≠ f.objectID then some (botType, p.1, p.2) else none := by
  unfold dispatchOne
  rw [hl]

theorem countA_filterMap_dispatchOne (botType : String) (files : FileSet) (cached : FileSet)
    (sub : List (String × Nat)) (hn : (sub.map Prod.fst).Nodup)
    (id : String) (cb : Nat) (hmem : (id, cb) ∈ sub) :
    countA (botType, id, cb) (sub.filterMap (dispatchOne botType files cached)) =
      match dispatchOne botType files cached (id, cb) with
      | some _ => 1
      | none => 0 := by
  induction sub with
  | nil => cases hmem
  | cons p rest ih =>
    obtain ⟨pk, pv⟩ := p
    simp only [List.map_cons, List.nodup_cons] at hn
    rcases List.mem_cons.mp hmem with heq | hmem2
    · injection heq with h1 h2
      subst h1
      subst h2
      have hzero : countA (botType, id, cb) (rest.filterMap (dispatchOne botType files cached)) = 0 := by
        apply countA_eq_zero_of_not_mem
        intro hm
        obtain ⟨a, ha, hga⟩ := List.mem_filterMap.mp hm
        have hsh := dispatchOne_shape botType files cached a _ hga
        have : a.1 = id := (congrArg (fun t => t.2.1) hsh).symm
        exact hn.1 (this ▸ List.mem_map.mpr ⟨a, ha, rfl⟩)
      rw [List.filterMap_cons]
      cases hg : dispatchOne botType files cached (id, cb) with
      | none => simpa [hg] using hzero
      | some q =>
        have hq := dispatchOne_shape botType files cached (id, cb) q hg
        subst hq
        simp [hg, countA, hzero]
    · have hid : id ∈ rest.map Prod.fst := List.mem_map.mpr ⟨(id, cb), hmem2, rfl⟩
      have hpk : pk ≠ id := fun he => hn.1 (he ▸ hid)
      rw [List.filterMap_cons]
      cases hg : dispatchOne botType files cached (pk, pv) with
      | none => exact ih hn.2 hmem2
      | some q =>
        have hq := dispatchOne_shape botType files cached (pk, pv) q hg
        subst hq
        have hne : (botType, pk, pv) ≠ (botType, id, cb) := by
          intro he
          exact hpk (congrArg (fun t => t.2.1) he)
        simp only [countA, if_neg hne, Nat.zero_add]
        exact ih hn.2 hmem2

theorem mem_buildFiles_aux (entries : List Entry) :
    ∀ (acc : FileSet) (p : String × File), p ∈ entries.foldl insFile acc →
      p ∈ acc ∨ ∃ e, e ∈ entries ∧ p = ((mkFile e).id, mkFile e) := by
  induction entries with
  | nil =>
    intro acc p h
    exact Or.inl h
  | cons e rest ih =>
    intro acc p h
    rw [List.foldl_cons] at h
    rcases ih (insFile acc e) p h with h1 | h1
    · simp only [insFile] at h1
      rcases mem_insertA acc (mkFile e).id (mkFile e) p h1 with h2 | h2
      · exact Or.inr ⟨e, List.mem_cons_self e rest, h2⟩
      · exact Or.inl h2
    · obtain ⟨e1, he1, hpe⟩ := h1
      exact Or.inr ⟨e1, List.mem_cons_of_mem e he1, hpe⟩

theorem mem_buildFiles (entries : List Entry) (p : String × File)
    (h : p ∈ buildFiles entries) : ∃ e, e ∈ entries ∧ p = ((mkFile e).id, mkFile e) := by
  rcases mem_buildFiles_aux entries [] p h with h1 | h1
  · cases h1
  · exact h1

theorem buildFiles_lookup_id (entries : List Entry) (id : String) (f : File)
    (h : lookupA (buildFiles entries) id = some f) : f.id = id := by
  obtain ⟨e, he, hpe⟩ := mem_buildFiles entries (id, f) (lookupA_mem _ _ _ h)
  have h1 : id = (mkFile e).id := congrArg Prod.fst hpe
  have h2 : f = mkFile e := congrArg Prod.snd hpe
  rw [h2, ← h1]

theorem nodup_keysA_buildFiles_aux (entries : List Entry) :
    ∀ acc : FileSet, (keysA acc).Nodup → (keysA (entries.foldl insFile acc)).Nodup := by
  induction entries with
  | nil =>
    intro acc h
    exact h
  | cons e rest ih =>
    intro acc h
    rw [List.foldl_cons]
    refine ih (insFile acc e) ?_
    simp only [insFile]
    exact nodup_keysA_insertA acc (mkFile e).id (mkFile e) h

theorem lookupA_foldl_insFile (entries : List Entry) :
    ∀ (acc : FileSet) (id : String),
      lookupA (entries.foldl insFile acc) id =
        match lastMatch entries id with
        | some e => some (mkFile e)
        | none => lookupA acc id := by
  induction entries with
  | nil =>
    intro acc id
    rfl
  | cons e rest ih =>
    intro acc id
    rw [List.foldl_cons, ih]
    cases hr : lastMatch rest id with
    | some r => simp [lastMatch, hr]
    | none =>
      simp only [lastMatch, hr]
      by_cases he : entryId e = id
      · simp only [he, if_true, insFile]
        rw [show (mkFile e).id = id from he]
        exact lookupA_insertA_self acc id (mkFile e)
      · simp only [he, if_false, insFile]
        exact lookupA_insertA_ne acc (mkFile e).id id (mkFile e)
          (fun h2 => he (show entryId e = id from h2.symm))

theorem lookupA_buildFiles (entries : List Entry) (id : String) :
    lookupA (buildFiles entries) id =
      match lastMatch entries id with
      | some e => some (mkFile e)
      | none => none := by
  rw [buildFiles, lookupA_foldl_insFile]
  cases lastMatch entries id <;> rfl

/-- Claim C1. The claim says a cache-miss ReadRequest whose fetch succeeds
caches the fetched set and answers from that fresh set.  The code caches the
fresh set but, because the fetched set is bound to a shadowing local, the id
lookup reads the pre-fetch nil map: with the fetcher returning a set that
does contain "hello", the reply is nonetheless ConfigNotFound, while the
same Read repeated against the now-populated cache would succeed. -/
theorem C1_cache_miss_read_shadow_bug :
    (handleRead (fun _ => .ok [⟨"hello.yml", "abc", "message: hi"⟩])
        ⟨[], []⟩ "slackBot" "hello" =
      (⟨[("slackBot", buildFiles [⟨"hello.yml", "abc", "message: hi"⟩])], []⟩,
       { reply := some (.configNotFound "slackBot" "hello"),
         dispatched := [], fetched := ["slackBot"] })) ∧
    lookupA (buildFiles [⟨"hello.yml", "abc", "message: hi"⟩]) "hello" =
      some (mkFile ⟨"hello.yml", "abc", "message: hi"⟩) ∧
    (handleRead (fun _ => .ok [⟨"hello.yml", "abc", "message: hi"⟩])
        ⟨[("slackBot", buildFiles [⟨"hello.yml", "abc", "message: hi"⟩])], []⟩
        "slackBot" "hello").2.reply =
      some (.decoded (.yamlDecode "message: hi")) := by
  decide

/-- Claim C2. The claim says a cache-miss ReadRequest whose fetch fails
replies with the wrapped fetch error and leaves no cache entry, so the next
Read fetches afresh.  The code does reply with the wrapped error, but it
installs an empty cache entry before fetching and leaves it there: the next
Read for the botType hits that empty entry, performs no fetch, and replies
ConfigNotFound even though the fetcher has recovered. -/
theorem C2_failed_fetch_leaves_empty_cache_entry :
    (handleRead (fun _ => .error "boom") ⟨[], []⟩ "slackBot" "hello" =
      (⟨[("slackBot", [])], []⟩,
       { reply := some (.fetchError "failed to query Github API: boom"),
         dispatched := [], fetched := ["slackBot"] })) ∧
    (handleRead (fun _ => .ok [⟨"hello.yml", "abc", "message: hi"⟩])
        ⟨[("slackBot", [])], []⟩ "slackBot" "hello" =
      (⟨[("slackBot", [])], []⟩,
       { reply := some (.configNotFound "slackBot" "hello"),
         dispatched := [], fetched := [] })) := by
  decide

/-- Claim C3, counterexample.  A Tick for a subscribed botType with no prior
cache entry and a successful fetch containing the subscribed id dispatches
no callback at all: the tick handler stores the fresh set as the cache entry
before diffing, so every marker compares equal to itself. -/
theorem C3_counterexample :
    lookupA ([] : List (String × FileSet)) "slackBot" = none ∧
    (lookupA (buildFiles [⟨"hello.yml", "abc", "message: hi"⟩]) "hello").isSome = true ∧
    (tickOne (fun _ => .ok [⟨"hello.yml", "abc", "message: hi"⟩])
        [] "slackBot" [("hello", 7)]).2 = [] := by
  decide

/-- Claim C3, amended: on a Tick for a botType with at least one active
subscription but no prior cache entry, a successful fetch dispatches no
callbacks; the fetched set is stored as the cache entry and becomes the
baseline for future diffs. -/
theorem C3_first_tick_is_silent_baseline (fetch : Fetcher)
    (cache : List (String × FileSet)) (botType : String)
    (sub : List (String × Nat)) (entries : List Entry)
    (hc : lookupA cache botType = none) (hf : fetch botType = .ok entries) :
    (tickOne fetch cache botType sub).2 = [] ∧
    lookupA (tickOne fetch cache botType sub).1 botType = some (buildFiles entries) := by
  have ht : tickOne fetch cache botType sub =
      (insertA (insertA cache botType (buildFiles entries)) botType (buildFiles entries),
       sub.filterMap (dispatchOne botType (buildFiles entries) (buildFiles entries))) := by
    unfold tickOne
    rw [hf]
    simp [get, hc, lookupA_insertA_self]
  constructor
  · rw [ht]
    apply filterMap_none
    intro p hp
    cases hl : lookupA (buildFiles entries) p.1 with
    | none =>
      unfold dispatchOne
      rw [hl]
    | some f =>
      have hid : f.id = p.1 := buildFiles_lookup_id entries p.1 f hl
      rw [dispatchOne_eq botType (buildFiles entries) (buildFiles entries) p f hl, hid, hl]
      show (if f.objectID ≠ f.objectID then some (botType, p.1, p.2) else none) = none
      simp
  · rw [ht]
    exact lookupA_insertA_self _ _ _

/-- Witness for the amended C3 at a concrete first tick. -/
theorem C3_first_tick_is_silent_baseline_witness :
    (tickOne (fun _ => .ok [⟨"greet.yaml", "v1", "text: hello"⟩])
        [] "bot" [("greet", 9)]).2 = [] ∧
    lookupA (tickOne (fun _ => .ok [⟨"greet.yaml", "v1", "text: hello"⟩])
        [] "bot" [("greet", 9)]).1 "bot" =
      some (buildFiles [⟨"greet.yaml", "v1", "text: hello"⟩]) :=
  C3_first_tick_is_silent_baseline (fun _ => .ok [⟨"greet.yaml", "v1", "text: hello"⟩])
    [] "bot" [("greet", 9)] [⟨"greet.yaml", "v1", "text: hello"⟩] rfl rfl

/-- Claim C4: on a Tick for a botType with an existing cache entry and a
successful fetch, a subscribed id present in the fresh set whose cached
counterpart carries a different objectID is dispatched exactly once, one
whose objectID is unchanged is dispatched zero times, and the cache entry is
replaced by the full fresh set. -/
theorem C4_tick_diff_dispatch (fetch : Fetcher) (cache : List (String × FileSet))
    (botType : String) (sub : List (String × Nat)) (entries : List Entry)
    (old : FileSet)
    (hc : lookupA cache botType = some old)
    (hf : fetch botType = .ok entries)
    (hn : (sub.map Prod.fst).Nodup) :
    (∀ id cb f oldF, (id, cb) ∈ sub →
        lookupA (buildFiles entries) id = some f →
        lookupA old f.id = some oldF →
        countA (botType, id, cb) (tickOne fetch cache botType sub).2 =
          (if oldF.objectID ≠ f.objectID then 1 else 0)) ∧
    lookupA (tickOne fetch cache botType sub).1 botType = some (buildFiles entries) := by
  have ht : tickOne fetch cache botType sub =
      (insertA cache botType (buildFiles entries),
       sub.filterMap (dispatchOne botType (buildFiles entries) old)) := by
    unfold tickOne
    rw [hf]
    simp [get, hc]
  constructor
  · intro id cb f oldF hmem hfile hold
    rw [ht]
    rw [countA_filterMap_dispatchOne botType (buildFiles entries) old sub hn id cb hmem]
    have hd : dispatchOne botType (buildFiles entries) old (id, cb) =
        if oldF.objectID ≠ f.objectID then some (botType, id, cb) else none := by
      rw [dispatchOne_eq botType (buildFiles entries) old (id, cb) f hfile, hold]
    rw [hd]
    by_cases ho : oldF.objectID ≠ f.objectID
    · simp [ho]
    · simp [ho]
  · rw [ht]
    exact lookupA_insertA_self _ _ _

/-- Witness for C4 at the spec's §8 scenario: marker "abc" becomes "def",
the subscribed callback fires exactly once, and the cache now holds the
fresh set. -/
theorem C4_tick_diff_dispatch_witness :
    countA ("slackBot", "hello", 7)
      (tickOne (fun _ => .ok [⟨"hello.yml", "def", "message: bye"⟩])
        [("slackBot", buildFiles [⟨"hello.yml", "abc", "message: hi"⟩])]
        "slackBot" [("hello", 7)]).2 = 1 ∧
    countA ("slackBot", "hello", 7)
      (tickOne (fun _ => .ok [⟨"hello.yml", "abc", "message: hi"⟩])
        [("slackBot", buildFiles [⟨"hello.yml", "abc", "message: hi"⟩])]
        "slackBot" [("hello", 7)]).2 = 0 ∧
    lookupA (tickOne (fun _ => .ok [⟨"hello.yml", "def", "message: bye"⟩])
        [("slackBot", buildFiles [⟨"hello.yml", "abc", "message: hi"⟩])]
        "slackBot" [("hello", 7)]).1 "slackBot" =
      some (buildFiles [⟨"hello.yml", "def", "message: bye"⟩]) := by
  have hchg := C4_tick_diff_dispatch (fun _ => .ok [⟨"hello.yml", "def", "message: bye"⟩])
    [("slackBot", buildFiles [⟨"hello.yml", "abc", "message: hi"⟩])] "slackBot"
    [("hello", 7)] [⟨"hello.yml", "def", "message: bye"⟩]
    (buildFiles [⟨"hello.yml", "abc", "message: hi"⟩]) (by decide) rfl (by decide)
  have hsame := C4_tick_diff_dispatch (fun _ => .ok [⟨"hello.yml", "abc", "message: hi"⟩])
    [("slackBot", buildFiles [⟨"hello.yml", "abc", "message: hi"⟩])] "slackBot"
    [("hello", 7)] [⟨"hello.yml", "abc", "message: hi"⟩]
    (buildFiles [⟨"hello.yml", "abc", "message: hi"⟩]) (by decide) rfl (by decide)
  refine ⟨?_, ?_, hchg.2⟩
  · have h1 := hchg.1 "hello" 7 (mkFile ⟨"hello.yml", "def", "message: bye"⟩)
      (mkFile ⟨"hello.yml", "abc", "message: hi"⟩) (by decide) (by decide) (by decide)
    rw [h1]
    decide
  · have h1 := hsame.1 "hello" 7 (mkFile ⟨"hello.yml", "abc", "message: hi"⟩)
      (mkFile ⟨"hello.yml", "abc", "message: hi"⟩) (by decide) (by decide) (by decide)
    rw [h1]
    decide

/-- Claim C5: when the fetch for a subscribed botType fails during a Tick,
that iteration leaves the cache exactly unchanged and dispatches nothing;
the tick handler never touches subscriptions and never produces a reply, so
no error reaches any caller. -/
theorem C5_tick_fetch_failure_silent (fetch : Fetcher) (cache : List (String × FileSet))
    (botType : String) (sub : List (String × Nat)) (e : String)
    (h : fetch botType = .error e) :
    tickOne fetch cache botType sub = (cache, []) ∧
    ∀ st : ActorState,
      (handleTick fetch st).1.subs = st.subs ∧ (handleTick fetch st).2.reply = none := by
  constructor
  · unfold tickOne
    rw [h]
    rfl
  · intro st
    exact ⟨rfl, rfl⟩

/-- Witness for C5 at a concrete failing fetch. -/
theorem C5_tick_fetch_failure_silent_witness :
    tickOne (fun _ => .error "boom")
      [("slackBot", buildFiles [⟨"hello.yml", "abc", "message: hi"⟩])]
      "slackBot" [("hello", 7)] =
      ([("slackBot", buildFiles [⟨"hello.yml", "abc", "message: hi"⟩])], []) ∧
    (handleTick (fun _ => .error "boom")
      ⟨[("slackBot", buildFiles [⟨"hello.yml", "abc", "message: hi"⟩])],
       [("slackBot", [("hello", 7)])]⟩).1.subs = [("slackBot", [("hello", 7)])] ∧
    (handleTick (fun _ => .error "boom")
      ⟨[("slackBot", buildFiles [⟨"hello.yml", "abc", "message: hi"⟩])],
       [("slackBot", [("hello", 7)])]⟩).2.reply = none := by
  have h := C5_tick_fetch_failure_silent (fun _ => .error "boom")
    [("slackBot", buildFiles [⟨"hello.yml", "abc", "message: hi"⟩])]
    "slackBot" [("hello", 7)] "boom" rfl
  exact ⟨h.1,
    (h.2 ⟨[("slackBot", buildFiles [⟨"hello.yml", "abc", "message: hi"⟩])],
          [("slackBot", [("hello", 7)])]⟩).1,
    (h.2 ⟨[("slackBot", buildFiles [⟨"hello.yml", "abc", "message: hi"⟩])],
          [("slackBot", [("hello", 7)])]⟩).2⟩

/-- Claim C6: processing Unsubscribe(botType) removes both the cache entry
and the subscription entry for that botType, and a Read for that botType
arriving next invokes the fetcher (whether it then succeeds or fails)
instead of reusing any previously cached data. -/
theorem C6_unwatch_clears_cache_and_subs (fetch : Fetcher) (st : ActorState)
    (botType : String) :
    lookupA (step fetch st (.unsubscribe botType)).1.cache botType = none ∧
    lookupA (step fetch st (.unsubscribe botType)).1.subs botType = none ∧
    ∀ id, (step fetch (step fetch st (.unsubscribe botType)).1
        (.readReq botType id)).2.fetched = [botType] := by
  refine ⟨lookupA_eraseA_self _ _, lookupA_eraseA_self _ _, ?_⟩
  intro id
  show (handleRead fetch ⟨eraseA st.cache botType, eraseA st.subs botType⟩ botType id).2.fetched
      = [botType]
  unfold handleRead
  simp only [lookupA_eraseA_self]
  cases get (fetch botType) <;> rfl

/-- Witness for C6 at a concrete populated state. -/
theorem C6_unwatch_clears_cache_and_subs_witness :
    lookupA (step (fun _ => .ok [])
      ⟨[("slackBot", buildFiles [⟨"hello.yml", "abc", "message: hi"⟩])],
       [("slackBot", [("hello", 7)])]⟩ (.unsubscribe "slackBot")).1.cache "slackBot" = none ∧
    (step (fun _ => .ok [])
      (step (fun _ => .ok [])
        ⟨[("slackBot", buildFiles [⟨"hello.yml", "abc", "message: hi"⟩])],
         [("slackBot", [("hello", 7)])]⟩ (.unsubscribe "slackBot")).1
      (.readReq "slackBot" "hello")).2.fetched = ["slackBot"] := by
  have h := C6_unwatch_clears_cache_and_subs (fun _ => .ok [])
    ⟨[("slackBot", buildFiles [⟨"hello.yml", "abc", "message: hi"⟩])],
     [("slackBot", [("hello", 7)])]⟩ "slackBot"
  exact ⟨h.1, h.2.2 "hello"⟩

/-- Claim C8: `read` selects the decode step solely by the file's extension:
".yml" and ".yaml" go to the YAML decoder over the file's content, ".json"
to the JSON decoder, and anything else yields the unsupported-extension
error carrying the file's id and extension, selecting no decoder. -/
theorem C8_decode_selected_by_extension (f : File) :
    ((f.extension = ".yml" ∨ f.extension = ".yaml") → read f = .yamlDecode f.content) ∧
    (f.extension = ".json" → read f = .jsonDecode f.content) ∧
    (f.extension ≠ ".yml" → f.extension ≠ ".yaml" → f.extension ≠ ".json" →
      read f = .unsupportedExtension f.id f.extension) := by
  refine ⟨?_, ?_, ?_⟩
  · intro h
    unfold read
    rw [if_pos h]
  · intro h
    have hy : ¬(f.extension = ".yml" ∨ f.extension = ".yaml") := by
      rintro (h1 | h1) <;> rw [h] at h1 <;> exact absurd h1 (by decide)
    unfold read
    rw [if_neg hy, if_pos h]
  · intro h1 h2 h3
    have hy : ¬(f.extension = ".yml" ∨ f.extension = ".yaml") := by
      rintro (hx | hx)
      · exact h1 hx
      · exact h2 hx
    unfold read
    rw [if_neg hy, if_neg h3]

/-- Witness for C8 at one file per extension class. -/
theorem C8_decode_selected_by_extension_witness :
    read ⟨"a", "a.yml", ".yml", "o1", "c1"⟩ = .yamlDecode "c1" ∧
    read ⟨"b", "b.json", ".json", "o2", "c2"⟩ = .jsonDecode "c2" ∧
    read ⟨"c", "c.txt", ".txt", "o3", "c3"⟩ = .unsupportedExtension "c" ".txt" :=
  ⟨(C8_decode_selected_by_extension ⟨"a", "a.yml", ".yml", "o1", "c1"⟩).1 (Or.inl rfl),
   (C8_decode_selected_by_extension ⟨"b", "b.json", ".json", "o2", "c2"⟩).2.1 rfl,
   (C8_decode_selected_by_extension ⟨"c", "c.txt", ".txt", "o3", "c3"⟩).2.2
     (by decide) (by decide) (by decide)⟩

/-- Claim C9: NewConfig fills the caller's coordinates plus branch "master",
a one-minute interval and a five-second timeout (in nanoseconds, as Go
`time.Duration` counts); New fails exactly when, after applying all options
in order, no client is configured, and otherwise returns the watcher. -/
theorem C9_construction (owner : String) (name : String) (baseDir : String)
    (cfg : Config) (opts : List Opt) :
    NewConfig owner name baseDir =
      ⟨owner, name, baseDir, "master", 60 * 1000000000, 5 * 1000000000⟩ ∧
    ((∃ e, New cfg opts = .error e) ↔ (applyOpts cfg opts).client = none) ∧
    ((applyOpts cfg opts).client ≠ none → New cfg opts = .ok (applyOpts cfg opts)) := by
  refine ⟨?_, ?_, ?_⟩
  · simp [NewConfig, minute, second]
  · cases hcl : (applyOpts cfg opts).client with
    | none =>
      have he : New cfg opts =
          .error "githubv4.Client must be derived from WithClient or WithToken option" := by
        unfold New
        rw [hcl]
      exact ⟨fun _ => rfl, fun _ => ⟨_, he⟩⟩
    | some c =>
      have hok : New cfg opts = .ok (applyOpts cfg opts) := by
        unfold New
        rw [hcl]
      constructor
      · rintro ⟨e, hee⟩
        rw [hok] at hee
        cases hee
      · intro hnone
        cases hnone
  · intro hne
    cases hcl : (applyOpts cfg opts).client with
    | none => exact absurd hcl hne
    | some c =>
      unfold New
      rw [hcl]

/-- Witness for C9: a token option yields a watcher, no options yield the
construction error. -/
theorem C9_construction_witness :
    NewConfig "oklahomer" "go-sarah-githubconfig-example" "config" =
      ⟨"oklahomer", "go-sarah-githubconfig-example", "config", "master",
       60 * 1000000000, 5 * 1000000000⟩ ∧
    New (NewConfig "oklahomer" "go-sarah-githubconfig-example" "config") [WithToken "t"] =
      .ok (applyOpts (NewConfig "oklahomer" "go-sarah-githubconfig-example" "config")
            [WithToken "t"]) ∧
    (∃ e, New (NewConfig "oklahomer" "go-sarah-githubconfig-example" "config") [] = .error e) := by
  have h := C9_construction "oklahomer" "go-sarah-githubconfig-example" "config"
    (NewConfig "oklahomer" "go-sarah-githubconfig-example" "config") [WithToken "t"]
  have h0 := C9_construction "oklahomer" "go-sarah-githubconfig-example" "config"
    (NewConfig "oklahomer" "go-sarah-githubconfig-example" "config") ([] : List Opt)
  exact ⟨h.1, h.2.2 (by decide), h0.2.1.mpr rfl⟩

/-- Claim C10: the fetched set is keyed by the entry name with its final
extension stripped; its keys are duplicate-free (at most one file per id);
a lookup returns the file built from the last listed entry whose computed
id matches, so entries whose names differ only in extension collide and the
later one wins. -/
theorem C10_fetched_set_keyed_by_id (entries : List Entry) :
    (keysA (buildFiles entries)).Nodup ∧
    (∀ id, lookupA (buildFiles entries) id =
      match lastMatch entries id with
      | some e => some (mkFile e)
      | none => none) ∧
    (∀ p, p ∈ buildFiles entries →
      ∃ e, e ∈ entries ∧ p = (entryId e, mkFile e) ∧
        (mkFile e).id = trimSuffix e.name (filepathExt e.name)) := by
  refine ⟨?_, ?_, ?_⟩
  · rw [buildFiles]
    exact nodup_keysA_buildFiles_aux entries [] (by simp [keysA])
  · intro id
    exact lookupA_buildFiles entries id
  · intro p hp
    obtain ⟨e, he, hpe⟩ := mem_buildFiles entries p hp
    exact ⟨e, he, hpe, rfl⟩

/-- Witness for C10: "hello.yml" then "hello.json" collide on id "hello"
and the later-listed JSON entry is the one kept. -/
theorem C10_fetched_set_keyed_by_id_witness :
    ∃ e, e ∈ [(⟨"hello.yml", "a", "x"⟩ : Entry), ⟨"hello.json", "b", "y"⟩] ∧
      (("hello", mkFile ⟨"hello.json", "b", "y"⟩) : String × File) = (entryId e, mkFile e) ∧
      (mkFile e).id = trimSuffix e.name (filepathExt e.name) :=
  (C10_fetched_set_keyed_by_id [⟨"hello.yml", "a", "x"⟩, ⟨"hello.json", "b", "y"⟩]).2.2
    ("hello", mkFile ⟨"hello.json", "b", "y"⟩) (by decide)

end GithubConfig
